import Mathlib

/-!
Shallow embedding of `src/k256/src/ecdsa/verify.rs` (ECDSA/secp256k1 signature
verification) together with the parts of the repository it depends on that are
not present under `src/` (scalar, point and digest primitives).  Those missing
parts are modelled from the specification, and each such definition carries a
doc comment starting with `Modelled from the spec:`.

Byte strings of fixed width 32 are represented by the natural number they
encode in big-endian form (the encoding is a bijection onto `[0, 2^256)`).
-/

/-- Modelled from the spec: the secp256k1 group order (the number of points in
the curve's cyclic subgroup; scalars are taken modulo this value). -/
def secpOrder : Nat :=
  0xFFFFFFFFFFFFFFFFFFFFFFFFFFFFFFFEBAAEDCE6AF48A03BBFD25E8CD0364141

/-- Modelled from the spec: the secp256k1 base-field prime (field order and
group order differ on this curve). -/
def secpP : Nat :=
  0xFFFFFFFFFFFFFFFFFFFFFFFFFFFFFFFFFFFFFFFFFFFFFFFFFFFFFFFEFFFFFC2F

instance : NeZero secpOrder := ⟨by decide⟩

instance : NeZero secpP := ⟨by decide⟩

/-- Modelled from the spec: a scalar is an integer modulo the group order. -/
abbrev Scalar := ZMod secpOrder

/-- Modelled from the spec: a base-field element (an integer modulo the field
prime). -/
abbrev FieldElement := ZMod secpP

/-- Modelled from the spec: the curve's cyclic subgroup of order `secpOrder`
(glossary: "the number of points in the curve's cyclic subgroup used for
signatures"), represented through discrete logarithms to the generator, so the
group operation is addition in `ZMod secpOrder` and `0` is the point at
infinity.  The spec treats the group arithmetic provider as an external,
assumed-correct collaborator, so any faithful model of a cyclic group of this
order is admissible. -/
abbrev ProjectivePoint := ZMod secpOrder

/-- Modelled from the spec: a finite (non-infinity) curve point in affine
form; the point at infinity has no affine representation. -/
def AffinePoint := { P : ProjectivePoint // P ≠ 0 }

/-- Modelled from the spec: the curve generator `G`. -/
def ProjectivePoint.generator : ProjectivePoint := 1

/-- Modelled from the spec: embedding of an affine point into the arithmetic
representation (`ProjectivePoint::from`). -/
def ProjectivePoint.fromAffine (a : AffinePoint) : ProjectivePoint := a.val

/-- Modelled from the spec: point addition. -/
def ProjectivePoint.add (P Q : ProjectivePoint) : ProjectivePoint := P + Q

/-- Modelled from the spec: scalar multiplication of a point (in the
discrete-logarithm representation this is multiplication mod the order). -/
def ProjectivePoint.mulScalar (P : ProjectivePoint) (k : Scalar) : ProjectivePoint :=
  k * P

/-- Modelled from the spec: conversion to affine coordinates, which fails
exactly on the point at infinity ("there is no finite x-coordinate"). -/
def ProjectivePoint.to_affine (P : ProjectivePoint) : Option AffinePoint :=
  if h : P = 0 then none else some ⟨P, h⟩

/-- Modelled from the spec: the affine x-coordinate of a finite point, as a
base-field element.  A point and its negation share the same x-coordinate
(this is the geometric fact behind the spec's remark that `(r, s)` and
`(r, order − s)` verify the same message under the naive equation), which the
discrete-logarithm model realises by mapping `P` and `-P` to the same value. -/
def xCoordOf (P : ProjectivePoint) : FieldElement :=
  ((min P.val (secpOrder - P.val) : Nat) : FieldElement)

/-- The affine x-coordinate accessor (`.x` in the source). -/
def AffinePoint.x (a : AffinePoint) : FieldElement := xCoordOf a.val

/-- Modelled from the spec: the canonical fixed-width big-endian byte encoding
of a field element, as the natural number it denotes. -/
def FieldElement.to_bytes (x : FieldElement) : Nat := x.val

/-- Modelled from the spec: interpret a 32-byte string as an integer and
reduce it into scalar space (`Scalar::from_bytes_reduced`). -/
def Scalar.from_bytes_reduced (b : Nat) : Scalar := (b : Scalar)

/-- Modelled from the spec: `NonZeroScalar` decoding — construction fails if
the encoded value is zero or not a canonical scalar (≥ group order).  The
resulting value is returned as the underlying scalar, matching the source's
deref of `NonZeroScalar` to `Scalar`. -/
def NonZeroScalar.from_bytes (b : Nat) : Option Scalar :=
  if 0 < b ∧ b < secpOrder then some (b : Scalar) else none

/-- Modelled from the spec: scalar inversion modulo the group order
(`Scalar::invert`), which fails exactly on the zero scalar. -/
def Scalar.invert (s : Scalar) : Option Scalar :=
  if s = 0 then none else some s⁻¹

/-- Modelled from the spec: the low-S check — a scalar is "high" when it is
greater than `order / 2` (`Scalar::is_high`). -/
def Scalar.is_high (s : Scalar) : Bool := decide (secpOrder / 2 < s.val)

/-- A fixed-size ECDSA signature: the big-endian byte encodings of the two
32-byte components `r` and `s`. -/
structure Signature where
  r : Nat
  s : Nat
  deriving DecidableEq

/-- The opaque signature error (`Error::new()` from the signature crate): it
carries no information about which check failed. -/
structure Error where
  deriving DecidableEq

/-- The single error value the source ever constructs. -/
def Error.new : Error := ⟨⟩

/-- The source location of an `unwrap` that can fail at runtime. -/
inductive PanicSite where
  | invertUnwrap
  | toAffineUnwrap
  deriving DecidableEq

/-- The observable result of a verification call: success, the opaque
`InvalidSignature` error, or a runtime panic of an `unwrap`. -/
inductive Outcome where
  | ok
  | err (e : Error)
  | panicked (site : PanicSite)
  deriving DecidableEq

/-- Embedding of `verify_prehashed` (src/k256/src/ecdsa/verify.rs, lines
57-87): decode `r` and `s` as non-zero scalars, reject a high `s`, and check
the ECDSA verification equation.  The two `unwrap` calls of the source are
rendered as explicit panic outcomes on their failure branches. -/
def verify_prehashed (Q : AffinePoint) (z : Scalar) (sig : Signature) : Outcome :=
  match NonZeroScalar.from_bytes sig.r, NonZeroScalar.from_bytes sig.s with
  | some r, some s =>
    if Scalar.is_high s then Outcome.err Error.new
    else
      match Scalar.invert s with
      | none => Outcome.panicked PanicSite.invertUnwrap
      | some s_inv =>
        let u1 := z * s_inv
        let u2 := r * s_inv
        match ProjectivePoint.to_affine
            (ProjectivePoint.add (ProjectivePoint.mulScalar ProjectivePoint.generator u1)
              (ProjectivePoint.mulScalar (ProjectivePoint.fromAffine Q) u2)) with
        | none => Outcome.panicked PanicSite.toAffineUnwrap
        | some a =>
          if Scalar.from_bytes_reduced (FieldElement.to_bytes (AffinePoint.x a)) = r then
            Outcome.ok
          else Outcome.err Error.new
  | _, _ => Outcome.err Error.new

/-- The curve point `R' = u1·G + u2·Q` computed by `verify_prehashed` from the
byte encodings `rb` and `sb` of the signature components. -/
def Rpoint (Q : AffinePoint) (z : Scalar) (rb sb : Nat) : ProjectivePoint :=
  ProjectivePoint.add
    (ProjectivePoint.mulScalar ProjectivePoint.generator (z * ((sb : Scalar))⁻¹))
    (ProjectivePoint.mulScalar (ProjectivePoint.fromAffine Q) ((rb : Scalar) * ((sb : Scalar))⁻¹))

/-- The verification key wraps a validated public-key affine point. -/
structure VerifyKey where
  key : AffinePoint

/-- Modelled from the spec: a digest state is the sequence of message bytes it
has consumed so far. -/
abbrev DigestState := List Nat

/-- Modelled from the spec: a 32-byte-output hash algorithm, as the function
from consumed bytes to the natural number its output encodes. -/
abbrev HashAlg := DigestState → Nat

/-- A freshly initialized digest state (`Digest::new()`). -/
def DigestState.new : DigestState := []

/-- Feeding bytes into a digest state (`Digest::chain`). -/
def DigestState.chain (st : DigestState) (msg : List Nat) : DigestState := st ++ msg

/-- Finalizing a digest state to its 32-byte output (`Digest::finalize`). -/
def DigestState.finalize (alg : HashAlg) (st : DigestState) : Nat := alg st

/-- Modelled from the spec: the ecdsa-core digest verifier delegated to by the
source — finalize the digest, reduce it into scalar space, and run the
verification primitive against the wrapped public-key point. -/
def core_verify_digest (alg : HashAlg) (k : VerifyKey) (st : DigestState)
    (sig : Signature) : Outcome :=
  verify_prehashed k.key (Scalar.from_bytes_reduced (DigestState.finalize alg st)) sig

/-- Embedding of `DigestVerifier<D, Signature>::verify_digest` for `VerifyKey`
(src lines 38-45): delegate to the core digest verifier. -/
def VerifyKey.verify_digest (alg : HashAlg) (k : VerifyKey) (st : DigestState)
    (sig : Signature) : Outcome :=
  core_verify_digest alg k st sig

/-- A recoverable signature: the `(r, s)` pair plus a 1-bit recovery
identifier. -/
structure RecoverableSignature where
  r : Nat
  s : Nat
  recovery_id : Bool
  deriving DecidableEq

/-- Modelled from the spec: `Signature::from` a recoverable signature drops
the recovery bit and keeps the `(r, s)` pair. -/
def Signature.from_recoverable (rs : RecoverableSignature) : Signature :=
  ⟨rs.r, rs.s⟩

/-- Embedding of `DigestVerifier<D, recoverable::Signature>::verify_digest`
for `VerifyKey` (src lines 47-54): strip the recovery bit and delegate. -/
def VerifyKey.verify_digest_recoverable (alg : HashAlg) (k : VerifyKey)
    (st : DigestState) (rs : RecoverableSignature) : Outcome :=
  core_verify_digest alg k st (Signature.from_recoverable rs)

/-- Embedding of `signature::Verifier::verify` for `VerifyKey` (src lines
28-36), instantiated at the plain signature shape: hash the whole message with
a fresh digest, then delegate to the digest verifier. -/
def VerifyKey.verify (alg : HashAlg) (k : VerifyKey) (msg : List Nat)
    (sig : Signature) : Outcome :=
  VerifyKey.verify_digest alg k (DigestState.chain DigestState.new msg) sig

/-- Embedding of `signature::Verifier::verify` for `VerifyKey` (src lines
28-36), instantiated at the recoverable signature shape. -/
def VerifyKey.verify_recoverable (alg : HashAlg) (k : VerifyKey) (msg : List Nat)
    (rs : RecoverableSignature) : Outcome :=
  VerifyKey.verify_digest_recoverable alg k (DigestState.chain DigestState.new msg) rs

/-- The specification side of the refinement claim about `verify_prehashed`:
the contract of section 4.3 of the spec followed word for word.  It differs
from the source embedding only in step 5, where the spec demands that the
point at infinity be treated as an `InvalidSignature` failure rather than a
panic. -/
def verify_prehashed_spec (Q : AffinePoint) (z : Scalar) (sig : Signature) : Outcome :=
  match NonZeroScalar.from_bytes sig.r, NonZeroScalar.from_bytes sig.s with
  | some r, some s =>
    if Scalar.is_high s then Outcome.err Error.new
    else
      match Scalar.invert s with
      | none => Outcome.err Error.new
      | some s_inv =>
        let u1 := z * s_inv
        let u2 := r * s_inv
        match ProjectivePoint.to_affine
            (ProjectivePoint.add (ProjectivePoint.mulScalar ProjectivePoint.generator u1)
              (ProjectivePoint.mulScalar (ProjectivePoint.fromAffine Q) u2)) with
        | none => Outcome.err Error.new
        | some a =>
          if Scalar.from_bytes_reduced (FieldElement.to_bytes (AffinePoint.x a)) = r then
            Outcome.ok
          else Outcome.err Error.new
  | _, _ => Outcome.err Error.new

/-- Modelled from the spec: the naive ECDSA verification equation (the spec's
steps without the low-S check) — `r` and `s` decode to canonical non-zero
scalars, the point `R' = u1·G + u2·Q` is finite, and its reduced x-coordinate
equals `r`. -/
def naive_accepts (Q : AffinePoint) (z : Scalar) (rb sb : Nat) : Prop :=
  (0 < rb ∧ rb < secpOrder) ∧ (0 < sb ∧ sb < secpOrder) ∧
    ∃ a, ProjectivePoint.to_affine (Rpoint Q z rb sb) = some a ∧
      Scalar.from_bytes_reduced (FieldElement.to_bytes (AffinePoint.x a)) = (rb : Scalar)

/-- The generator as an affine public-key point (discrete logarithm 1). -/
def affG : AffinePoint := ⟨1, by decide⟩

/-- The inverse of the generator as an affine public-key point (discrete
logarithm `order − 1`). -/
def affNegG : AffinePoint := ⟨((secpOrder - 1 : Nat) : Scalar), by decide⟩

/-- The inverse of twice the generator as an affine public-key point (discrete
logarithm `order − 2`). -/
def affNeg2G : AffinePoint := ⟨((secpOrder - 2 : Nat) : Scalar), by decide⟩

lemma from_bytes_eq_some {b : Nat} (h1 : 0 < b) (h2 : b < secpOrder) :
    NonZeroScalar.from_bytes b = some (b : Scalar) := if_pos ⟨h1, h2⟩

lemma from_bytes_eq_none {b : Nat} (h : ¬(0 < b ∧ b < secpOrder)) :
    NonZeroScalar.from_bytes b = none := if_neg h

lemma natCast_scalar_ne_zero {b : Nat} (h1 : 0 < b) (h2 : b < secpOrder) :
    (b : Scalar) ≠ 0 := by
  intro h
  rw [ZMod.natCast_zmod_eq_zero_iff_dvd] at h
  exact absurd (Nat.le_of_dvd h1 h) (not_le.mpr h2)

lemma invert_eq_some {b : Nat} (h1 : 0 < b) (h2 : b < secpOrder) :
    Scalar.invert (b : Scalar) = some ((b : Scalar))⁻¹ :=
  if_neg (natCast_scalar_ne_zero h1 h2)

lemma is_high_cast {b : Nat} (h2 : b < secpOrder) :
    Scalar.is_high (b : Scalar) = decide (secpOrder / 2 < b) := by
  unfold Scalar.is_high
  rw [ZMod.val_natCast_of_lt h2]

lemma verify_decode_r_fail {Q : AffinePoint} {z : Scalar} {sig : Signature}
    (h : ¬(0 < sig.r ∧ sig.r < secpOrder)) :
    verify_prehashed Q z sig = Outcome.err Error.new := by
  unfold verify_prehashed
  rw [from_bytes_eq_none h]

lemma verify_decode_s_fail {Q : AffinePoint} {z : Scalar} {sig : Signature}
    (h : ¬(0 < sig.s ∧ sig.s < secpOrder)) :
    verify_prehashed Q z sig = Outcome.err Error.new := by
  unfold verify_prehashed
  rw [from_bytes_eq_none h]
  cases NonZeroScalar.from_bytes sig.r <;> rfl

lemma verify_high_s {Q : AffinePoint} {z : Scalar} {rb sb : Nat}
    (hs1 : 0 < sb) (hs2 : sb < secpOrder) (hhigh : secpOrder / 2 < sb) :
    verify_prehashed Q z ⟨rb, sb⟩ = Outcome.err Error.new := by
  by_cases hrv : 0 < rb ∧ rb < secpOrder
  · unfold verify_prehashed
    simp only [from_bytes_eq_some hrv.1 hrv.2, from_bytes_eq_some hs1 hs2]
    rw [is_high_cast hs2]
    simp [hhigh]
  · exact verify_decode_r_fail hrv

lemma verify_main {Q : AffinePoint} {z : Scalar} {rb sb : Nat}
    (hr1 : 0 < rb) (hr2 : rb < secpOrder) (hs1 : 0 < sb) (hs2 : sb < secpOrder)
    (hlow : sb ≤ secpOrder / 2) :
    verify_prehashed Q z ⟨rb, sb⟩ =
      match ProjectivePoint.to_affine (Rpoint Q z rb sb) with
      | none => Outcome.panicked PanicSite.toAffineUnwrap
      | some a =>
        if Scalar.from_bytes_reduced (FieldElement.to_bytes (AffinePoint.x a)) = (rb : Scalar)
        then Outcome.ok else Outcome.err Error.new := by
  unfold verify_prehashed
  simp only [from_bytes_eq_some hr1 hr2, from_bytes_eq_some hs1 hs2]
  rw [is_high_cast hs2]
  simp only [decide_eq_true_eq, not_lt.mpr hlow, decide_eq_false (not_lt.mpr hlow),
    Bool.false_eq_true, if_false, invert_eq_some hs1 hs2]
  rfl

lemma to_affine_eq_some {P : ProjectivePoint} (h : P ≠ 0) :
    ProjectivePoint.to_affine P = some ⟨P, h⟩ := dif_neg h

lemma to_affine_eq_none {P : ProjectivePoint} (h : P = 0) :
    ProjectivePoint.to_affine P = none := dif_pos h

lemma to_affine_some_inv {P : ProjectivePoint} {a : AffinePoint}
    (h : ProjectivePoint.to_affine P = some a) : ∃ hne : P ≠ 0, a = ⟨P, hne⟩ := by
  unfold ProjectivePoint.to_affine at h
  split at h
  · exact absurd h (by simp)
  · rename_i hne
    cases h
    exact ⟨hne, rfl⟩

lemma xCoordOf_neg (P : ProjectivePoint) : xCoordOf (-P) = xCoordOf P := by
  unfold xCoordOf
  by_cases h : P = 0
  · rw [h, neg_zero]
  · rw [ZMod.neg_val, if_neg h]
    have hlt : P.val < secpOrder := ZMod.val_lt P
    congr 1
    rw [Nat.sub_sub_self (le_of_lt hlt)]
    exact Nat.min_comm _ _

lemma verify_spec_decode_r_fail {Q : AffinePoint} {z : Scalar} {sig : Signature}
    (h : ¬(0 < sig.r ∧ sig.r < secpOrder)) :
    verify_prehashed_spec Q z sig = Outcome.err Error.new := by
  unfold verify_prehashed_spec
  rw [from_bytes_eq_none h]

lemma verify_spec_main {Q : AffinePoint} {z : Scalar} {rb sb : Nat}
    (hr1 : 0 < rb) (hr2 : rb < secpOrder) (hs1 : 0 < sb) (hs2 : sb < secpOrder)
    (hlow : sb ≤ secpOrder / 2) :
    verify_prehashed_spec Q z ⟨rb, sb⟩ =
      match ProjectivePoint.to_affine (Rpoint Q z rb sb) with
      | none => Outcome.err Error.new
      | some a =>
        if Scalar.from_bytes_reduced (FieldElement.to_bytes (AffinePoint.x a)) = (rb : Scalar)
        then Outcome.ok else Outcome.err Error.new := by
  unfold verify_prehashed_spec
  simp only [from_bytes_eq_some hr1 hr2, from_bytes_eq_some hs1 hs2]
  rw [is_high_cast hs2]
  simp only [decide_eq_true_eq, not_lt.mpr hlow, decide_eq_false (not_lt.mpr hlow),
    Bool.false_eq_true, if_false, invert_eq_some hs1 hs2]
  rfl

lemma Rpoint_s_one (Q : AffinePoint) (z : Scalar) (rb : Nat) :
    Rpoint Q z rb 1 = z + (rb : Scalar) * ProjectivePoint.fromAffine Q := by
  unfold Rpoint ProjectivePoint.add ProjectivePoint.mulScalar ProjectivePoint.generator
  rw [Nat.cast_one, ZMod.inv_one]
  ring

lemma verify_accepts_G_0_1_1 : verify_prehashed affG 0 ⟨1, 1⟩ = Outcome.ok := by
  rw [verify_main (by decide) (by decide) (by decide) (by decide) (by decide)]
  have hR : Rpoint affG 0 1 1 = 1 := by
    rw [Rpoint_s_one]
    decide
  rw [hR, to_affine_eq_some (by decide : (1 : ProjectivePoint) ≠ 0)]
  exact if_pos (by decide)

/-- C4: for every public key and digest scalar, any signature in which the byte
encoding of `r` or of `s` is zero, or encodes a value greater than or equal to
the group order, is rejected by `verify_prehashed` with the `InvalidSignature`
error. -/
theorem C4_zero_or_out_of_range_rejected (Q : AffinePoint) (z : Scalar) (rb sb : Nat)
    (h : rb = 0 ∨ sb = 0 ∨ secpOrder ≤ rb ∨ secpOrder ≤ sb) :
    verify_prehashed Q z ⟨rb, sb⟩ = Outcome.err Error.new := by
  rcases h with h | h | h | h
  · exact verify_decode_r_fail (by dsimp only; omega)
  · exact verify_decode_s_fail (by dsimp only; omega)
  · exact verify_decode_r_fail (by dsimp only; omega)
  · exact verify_decode_s_fail (by dsimp only; omega)

/-- Witness for C4 at the concrete input `r = 0`, `s = 1`. -/
theorem C4_witness : verify_prehashed affG 0 ⟨0, 1⟩ = Outcome.err Error.new :=
  C4_zero_or_out_of_range_rejected affG 0 0 1 (Or.inl rfl)

/-- C3: for every public key, digest scalar and signature whose `s` component
decodes to a valid non-zero scalar greater than `order / 2`, `verify_prehashed`
rejects with the `InvalidSignature` error; the result does not depend on the
public key, the digest scalar or the `r` component, because the low-S check
returns before the verification-equation computation. -/
theorem C3_high_s_rejected (Q : AffinePoint) (z : Scalar) (rb sb : Nat)
    (hs1 : 0 < sb) (hs2 : sb < secpOrder) (hhigh : secpOrder / 2 < sb) :
    verify_prehashed Q z ⟨rb, sb⟩ = Outcome.err Error.new :=
  verify_high_s hs1 hs2 hhigh

/-- Witness for C3 at the concrete high scalar `s = order − 1`. -/
theorem C3_witness :
    0 < secpOrder - 1 ∧ secpOrder - 1 < secpOrder ∧ secpOrder / 2 < secpOrder - 1 ∧
      verify_prehashed affG 0 ⟨1, secpOrder - 1⟩ = Outcome.err Error.new :=
  ⟨by decide, by decide, by decide,
    C3_high_s_rejected affG 0 1 (secpOrder - 1) (by decide) (by decide) (by decide)⟩

/-- C9: every rejection of `verify_prehashed` among the enumerated causes — a
zero or out-of-range `r`, a zero or out-of-range `s`, a high `s`, or an
x-coordinate mismatch — returns one and the same undifferentiated error value
`Error.new`, which carries no information about which check failed. -/
theorem C9_single_opaque_error (Q : AffinePoint) (z : Scalar) (rb sb : Nat)
    (h : ¬((0 < rb ∧ rb < secpOrder) ∧ (0 < sb ∧ sb < secpOrder))
      ∨ ((0 < sb ∧ sb < secpOrder) ∧ secpOrder / 2 < sb)
      ∨ ((0 < rb ∧ rb < secpOrder) ∧ (0 < sb ∧ sb < secpOrder) ∧ sb ≤ secpOrder / 2 ∧
          Rpoint Q z rb sb ≠ 0 ∧
          Scalar.from_bytes_reduced (FieldElement.to_bytes (xCoordOf (Rpoint Q z rb sb))) ≠
            (rb : Scalar))) :
    verify_prehashed Q z ⟨rb, sb⟩ = Outcome.err Error.new := by
  rcases h with h | ⟨hs, hh⟩ | ⟨hr, hs, hlow, hfin, hx⟩
  · by_cases hrv : 0 < rb ∧ rb < secpOrder
    · exact verify_decode_s_fail (by dsimp only; tauto)
    · exact verify_decode_r_fail (by dsimp only; tauto)
  · exact verify_high_s hs.1 hs.2 hh
  · rw [verify_main hr.1 hr.2 hs.1 hs.2 hlow, to_affine_eq_some hfin]
    exact if_neg hx

/-- Witness for C9 at the concrete decode-failure input `r = 0`, `s = 2`. -/
theorem C9_witness : verify_prehashed affG 0 ⟨0, 2⟩ = Outcome.err Error.new :=
  C9_single_opaque_error affG 0 0 2 (Or.inl (by decide))

/-- C10: whenever `verify_prehashed` accepts, the signature is canonical: both
component encodings are in `[1, order)` and `s` is low (at most `order / 2`). -/
theorem C10_accepted_is_canonical (Q : AffinePoint) (z : Scalar) (rb sb : Nat)
    (h : verify_prehashed Q z ⟨rb, sb⟩ = Outcome.ok) :
    (0 < rb ∧ rb < secpOrder) ∧ (0 < sb ∧ sb < secpOrder) ∧ sb ≤ secpOrder / 2 := by
  by_cases hrv : 0 < rb ∧ rb < secpOrder
  · by_cases hsv : 0 < sb ∧ sb < secpOrder
    · by_cases hlow : sb ≤ secpOrder / 2
      · exact ⟨hrv, hsv, hlow⟩
      · rw [verify_high_s hsv.1 hsv.2 (not_le.mp hlow)] at h
        simp at h
    · rw [verify_decode_s_fail (by dsimp only; exact hsv)] at h
      simp at h
  · rw [verify_decode_r_fail (by dsimp only; exact hrv)] at h
    simp at h

/-- Witness for C10 at a concrete accepted input. -/
theorem C10_witness :
    (0 < 1 ∧ 1 < secpOrder) ∧ (0 < 1 ∧ 1 < secpOrder) ∧ 1 ≤ secpOrder / 2 :=
  C10_accepted_is_canonical affG 0 1 1 verify_accepts_G_0_1_1

/-- C8: for every execution of `verify_prehashed` that passes the step-1
non-zero-scalar decoding, the scalar inversion succeeds, so the failure branch
of its `unwrap` is unreachable. -/
theorem C8_invert_always_succeeds (Q : AffinePoint) (z : Scalar) (rb sb : Nat)
    (hr1 : 0 < rb) (hr2 : rb < secpOrder) (hs1 : 0 < sb) (hs2 : sb < secpOrder) :
    (Scalar.invert ((sb : Scalar))).isSome = true ∧
      verify_prehashed Q z ⟨rb, sb⟩ ≠ Outcome.panicked PanicSite.invertUnwrap := by
  refine ⟨by rw [invert_eq_some hs1 hs2]; rfl, ?_⟩
  by_cases hlow : sb ≤ secpOrder / 2
  · rw [verify_main hr1 hr2 hs1 hs2 hlow]
    split
    · simp
    · split <;> simp
  · rw [verify_high_s hs1 hs2 (not_le.mp hlow)]
    simp

/-- Witness for C8 at the concrete input `r = 1`, `s = 1`. -/
theorem C8_witness :
    (Scalar.invert (((1 : Nat) : Scalar))).isSome = true ∧
      verify_prehashed affG 0 ⟨1, 1⟩ ≠ Outcome.panicked PanicSite.invertUnwrap :=
  C8_invert_always_succeeds affG 0 1 1 (by decide) (by decide) (by decide) (by decide)

/-- Counterexample to C1 as stated: at the public key with discrete logarithm
`order − 2`, digest scalar `2` and signature `(1, 1)`, the decoding and low-S
checks pass, yet `verify_prehashed` neither returns `Ok` nor the
`InvalidSignature` error — the computed point `R'` is the point at infinity and
the affine-conversion `unwrap` panics. -/
theorem C1_counterexample :
    ((0 : Nat) < 1 ∧ (1 : Nat) < secpOrder ∧ (1 : Nat) ≤ secpOrder / 2) ∧
    verify_prehashed affNeg2G 2 ⟨1, 1⟩ = Outcome.panicked PanicSite.toAffineUnwrap ∧
    verify_prehashed affNeg2G 2 ⟨1, 1⟩ ≠ Outcome.ok ∧
    verify_prehashed affNeg2G 2 ⟨1, 1⟩ ≠ Outcome.err Error.new := by
  have hR : Rpoint affNeg2G 2 1 1 = 0 := by
    rw [Rpoint_s_one]
    decide
  have hv : verify_prehashed affNeg2G 2 ⟨1, 1⟩ = Outcome.panicked PanicSite.toAffineUnwrap := by
    rw [verify_main (by decide) (by decide) (by decide) (by decide) (by decide), hR,
      to_affine_eq_none rfl]
  exact ⟨⟨by decide, by decide, by decide⟩, hv, by rw [hv]; simp, by rw [hv]; simp⟩

/-- C1 (amended): for inputs that pass the decoding and low-S checks and whose
computed point `R' = u1·G + u2·Q` is not the point at infinity,
`verify_prehashed` agrees with the specification contract, and it returns `Ok`
if and only if the x-coordinate of `R'` reduced modulo the group order equals
`r`, returning the `InvalidSignature` error otherwise. -/
theorem C1_amended_verification_equation (Q : AffinePoint) (z : Scalar) (rb sb : Nat)
    (hr1 : 0 < rb) (hr2 : rb < secpOrder) (hs1 : 0 < sb) (hs2 : sb < secpOrder)
    (hlow : sb ≤ secpOrder / 2) (hfin : Rpoint Q z rb sb ≠ 0) :
    verify_prehashed Q z ⟨rb, sb⟩ = verify_prehashed_spec Q z ⟨rb, sb⟩ ∧
    (verify_prehashed Q z ⟨rb, sb⟩ = Outcome.ok ↔
      Scalar.from_bytes_reduced (FieldElement.to_bytes (xCoordOf (Rpoint Q z rb sb))) =
        (rb : Scalar)) ∧
    (Scalar.from_bytes_reduced (FieldElement.to_bytes (xCoordOf (Rpoint Q z rb sb))) ≠
        (rb : Scalar) →
      verify_prehashed Q z ⟨rb, sb⟩ = Outcome.err Error.new) := by
  rw [verify_main hr1 hr2 hs1 hs2 hlow, verify_spec_main hr1 hr2 hs1 hs2 hlow,
    to_affine_eq_some hfin]
  by_cases hx : Scalar.from_bytes_reduced (FieldElement.to_bytes (xCoordOf (Rpoint Q z rb sb))) =
      (rb : Scalar)
  · exact ⟨rfl, iff_of_true (if_pos hx) hx, fun hc => absurd hx hc⟩
  · refine ⟨rfl, iff_of_false ?_ hx, fun _ => if_neg hx⟩
    intro hc
    have hcontra : Outcome.err Error.new = Outcome.ok := (if_neg hx).symm.trans hc
    simp at hcontra

/-- Witness for the amended C1 at a concrete input with a finite `R'`. -/
theorem C1_witness :
    verify_prehashed affG 0 ⟨1, 1⟩ = verify_prehashed_spec affG 0 ⟨1, 1⟩ ∧
    (verify_prehashed affG 0 ⟨1, 1⟩ = Outcome.ok ↔
      Scalar.from_bytes_reduced (FieldElement.to_bytes (xCoordOf (Rpoint affG 0 1 1))) =
        ((1 : Nat) : Scalar)) ∧
    (Scalar.from_bytes_reduced (FieldElement.to_bytes (xCoordOf (Rpoint affG 0 1 1))) ≠
        ((1 : Nat) : Scalar) →
      verify_prehashed affG 0 ⟨1, 1⟩ = Outcome.err Error.new) :=
  C1_amended_verification_equation affG 0 1 1 (by decide) (by decide) (by decide) (by decide)
    (by decide) (by rw [Rpoint_s_one]; decide)

/-- C2: at the public key with discrete logarithm `order − 1`, digest scalar
`1` and signature `(1, 1)`, the point `R' = u1·G + u2·Q` is the point at
infinity, and `verify_prehashed` panics in the affine-conversion `unwrap`
instead of returning the `InvalidSignature` error the claim demands. -/
theorem C2_point_at_infinity_panics :
    Rpoint affNegG 1 1 1 = 0 ∧
    verify_prehashed affNegG 1 ⟨1, 1⟩ = Outcome.panicked PanicSite.toAffineUnwrap ∧
    verify_prehashed affNegG 1 ⟨1, 1⟩ ≠ Outcome.err Error.new := by
  have hR : Rpoint affNegG 1 1 1 = 0 := by
    rw [Rpoint_s_one]
    decide
  have hv : verify_prehashed affNegG 1 ⟨1, 1⟩ = Outcome.panicked PanicSite.toAffineUnwrap := by
    rw [verify_main (by decide) (by decide) (by decide) (by decide) (by decide), hR,
      to_affine_eq_none rfl]
  exact ⟨hR, hv, by rw [hv]; simp⟩

/-- C5: for every signature `(r, s)` with `s` a non-zero low scalar (and, as
the spec guarantees for the prime group order, invertible), the twin signature
`(r, order − s)` is rejected by `verify_prehashed` with the `InvalidSignature`
error for every public key and digest scalar, even though the naive
verification equation accepts the twin whenever it accepts `(r, s)`. -/
theorem C5_high_twin_rejected (Q : AffinePoint) (z : Scalar) (rb sb : Nat)
    (hs1 : 0 < sb) (hsl : sb ≤ secpOrder / 2) (hco : Nat.Coprime sb secpOrder) :
    verify_prehashed Q z ⟨rb, secpOrder - sb⟩ = Outcome.err Error.new ∧
    (naive_accepts Q z rb sb → naive_accepts Q z rb (secpOrder - sb)) := by
  have hodd : secpOrder = 2 * (secpOrder / 2) + 1 := by decide
  have hs2 : sb < secpOrder := by omega
  have ht1 : 0 < secpOrder - sb := by omega
  have ht2 : secpOrder - sb < secpOrder := by omega
  have hth : secpOrder / 2 < secpOrder - sb := by omega
  refine ⟨verify_high_s ht1 ht2 hth, ?_⟩
  rintro ⟨hrv, hsv, a, ha, hx⟩
  obtain ⟨hne, rfl⟩ := to_affine_some_inv ha
  have hunit : IsUnit ((sb : Scalar)) := (ZMod.isUnit_iff_coprime sb secpOrder).mpr hco
  have hcast : ((secpOrder - sb : Nat) : Scalar) = -((sb : Scalar)) := by
    rw [Nat.cast_sub (le_of_lt hs2), ZMod.natCast_self, zero_sub]
  have hinv : ((-(sb : Scalar)))⁻¹ = -(((sb : Scalar))⁻¹) := by
    have h1 : (-(sb : Scalar)) * ((-(sb : Scalar)))⁻¹ = 1 :=
      ZMod.mul_inv_of_unit _ hunit.neg
    have h2 : (-(sb : Scalar)) * (-(((sb : Scalar))⁻¹)) = 1 := by
      rw [neg_mul_neg]
      exact ZMod.mul_inv_of_unit _ hunit
    exact hunit.neg.mul_left_cancel (h1.trans h2.symm)
  have hRtwin : Rpoint Q z rb (secpOrder - sb) = -(Rpoint Q z rb sb) := by
    unfold Rpoint ProjectivePoint.add ProjectivePoint.mulScalar
    rw [hcast, hinv]
    ring
  have hne' : Rpoint Q z rb (secpOrder - sb) ≠ 0 := by
    rw [hRtwin]
    exact neg_ne_zero.mpr hne
  refine ⟨hrv, ⟨ht1, ht2⟩, ⟨Rpoint Q z rb (secpOrder - sb), hne'⟩, to_affine_eq_some hne', ?_⟩
  show Scalar.from_bytes_reduced
      (FieldElement.to_bytes (xCoordOf (Rpoint Q z rb (secpOrder - sb)))) = (rb : Scalar)
  rw [hRtwin, xCoordOf_neg]
  exact hx

/-- Witness for C5 at the concrete low scalar `s = 1` (coprime to the order). -/
theorem C5_witness :
    verify_prehashed affG 0 ⟨5, secpOrder - 1⟩ = Outcome.err Error.new ∧
    (naive_accepts affG 0 5 1 → naive_accepts affG 0 5 (secpOrder - 1)) :=
  C5_high_twin_rejected affG 0 5 1 (by decide) (by decide) (Nat.coprime_one_left _)

/-- C6: digest verification of a recoverable signature gives exactly the same
outcome as digest verification of the plain signature obtained by dropping the
recovery identifier, for every hash algorithm, key, digest state and value of
the recovery identifier. -/
theorem C6_recoverable_equals_plain (alg : HashAlg) (k : VerifyKey) (st : DigestState)
    (rb sb : Nat) (recid : Bool) :
    VerifyKey.verify_digest_recoverable alg k st ⟨rb, sb, recid⟩ =
      VerifyKey.verify_digest alg k st ⟨rb, sb⟩ := rfl

/-- C7: `verify` is exactly hash-to-completion followed by delegation to the
digest-based verifier — the digest state fed to `verify_digest` is a fresh
state chained with the whole message and nothing else — and the same holds for
the recoverable signature shape. -/
theorem C7_verify_is_hash_then_delegate (alg : HashAlg) (k : VerifyKey) (msg : List Nat)
    (sig : Signature) (rs : RecoverableSignature) :
    VerifyKey.verify alg k msg sig =
      VerifyKey.verify_digest alg k (DigestState.chain DigestState.new msg) sig ∧
    VerifyKey.verify alg k msg sig = VerifyKey.verify_digest alg k msg sig ∧
    VerifyKey.verify_recoverable alg k msg rs =
      VerifyKey.verify_digest_recoverable alg k (DigestState.chain DigestState.new msg) rs := by
  refine ⟨rfl, ?_, rfl⟩
  unfold VerifyKey.verify DigestState.chain DigestState.new
  rw [List.nil_append]
